import Mathlib

/-!
# Verification of the sports-predictions feature pipeline

Shallow embedding of the two source files of the repository,
`nba/nba_analyzer.py` (class `NBAAnalyzer`) and `nba/nba_datafeed.py`
(class `NBADataFeed`), together with theorems settling the claims about
them.

Modelling conventions:
* DataFrames become lists of structure values; each structure mirrors the
  named columns the code manipulates.  Numeric (float64) statistics are
  modelled as exact rationals; every number the claims mention is exactly
  representable.
* `pandas` behaviours relied on by the code are embedded as documented:
  `sort_values` is modelled by a stable sort; `drop_duplicates` keeps the
  first occurrence of each row; `Series.quantile` uses linear
  interpolation; `groupby(...).shift(-1)` gives each row the values of the
  next row of the same group (missing for a group's last row); and
  `pd.merge` treats missing (NaN) join keys as equal to each other, so
  rows whose keys are both missing do pair up.
* Dates are days since an arbitrary epoch (the data carries dates with no
  time component, so `.diff().dt.days` is exact integer day difference).
* Identifier passthrough columns that the pipeline never inspects
  (`TEAM_ABBREVIATION`, `TEAM_NAME`) are folded into the single retained
  entity identifier.
-/

namespace SportsPred

/-- Helper for `dropDuplicates`: drop every element that already
occurred (collected in `seen`), keep the first occurrence of anything
new. -/
def dropDupSeen {α : Type} [DecidableEq α] (seen : List α) : List α → List α
  | [] => []
  | x :: xs => if x ∈ seen then dropDupSeen seen xs else x :: dropDupSeen (x :: seen) xs

/-- `drop_duplicates` of pandas: keep the first occurrence of every
distinct row, preserving order. -/
def dropDuplicates {α : Type} [DecidableEq α] (l : List α) : List α := dropDupSeen [] l

/-- Stable insertion used to model `sort_values`: an element goes in
front of the first position whose element does not satisfy
`le x (new element)`, so equal keys keep their original relative order
when the sort is built with `List.foldr`. -/
def insertSorted {α : Type} (le : α → α → Bool) (a : α) : List α → List α
  | [] => [a]
  | b :: bs => if le a b then a :: b :: bs else b :: insertSorted le a bs

/-- Stable sort modelling `DataFrame.sort_values`. -/
def sortBy {α : Type} (le : α → α → Bool) (l : List α) : List α :=
  l.foldr (insertSorted le) []

/-! ## Data model of `NBAAnalyzer.get_game_averages_df` -/

/-- One raw per-game row as read from a per-entity CSV: season identifier,
game identifier, date, matchup string, `"W"`/`"L"` flag and the numeric
box-score statistics (`FGM` … `PLUS_MINUS`), in column order.
`entity_id` stands for the retained `TEAM_ID`/`PLAYER_ID` column. -/
structure RawRow where
  entity_id : String
  season_id : String
  game_id : String
  game_date : Int
  matchup : String
  wl : String
  box : List ℚ
deriving DecidableEq, Repr

/-- A row after the per-row derivations of lines 23–26 of
`nba_analyzer.py`: season year token, numeric win/loss, home flag. -/
structure PRow where
  entity_id : String
  season_year : String
  game_id : String
  game_date : Int
  home_game : Nat
  wlq : ℚ
  box : List ℚ
deriving DecidableEq, Repr

/-- A row of the date-sorted frame with the `REST_DAYS` column attached
(line 28 of `nba_analyzer.py`). -/
structure SRow where
  entity_id : String
  season_year : String
  game_id : String
  game_date : Int
  home_game : Nat
  wlq : ℚ
  box : List ℚ
  rest : ℚ
deriving DecidableEq, Repr

/-- The values of the `stats_cols` columns of one row: `WL`, the raw
box-score statistics, and `REST_DAYS` (every column not in the exclusion
list of lines 31–35). -/
structure StatVec where
  wl : ℚ
  box : List ℚ
  rest : ℚ
deriving DecidableEq, Repr

def dStat : StatVec := ⟨0, [], 0⟩

def dSRow : SRow := ⟨"", "", "", 0, 0, 0, [], 0⟩

def dPRow : PRow := ⟨"", "", "", 0, 0, 0, []⟩

/-- `SEASON_YEAR = SEASON_ID.str[-4:]` (line 23). -/
def seasonYear (s : String) : String :=
  (s.drop (s.length - 4))

/-- `WL = 1 if x=="W" else 0` (line 24). -/
def wlNum (s : String) : ℚ := if s = "W" then 1 else 0

/-- `HOME_GAME = 0 if '@' in x else 1` (line 25). -/
def homeFlag (matchup : String) : Nat := if matchup.contains '@' then 0 else 1

/-- Per-row derivations of lines 23–26. -/
def prepRow (r : RawRow) : PRow :=
  ⟨r.entity_id, seasonYear r.season_id, r.game_id, r.game_date,
   homeFlag r.matchup, wlNum r.wl, r.box⟩

def prepRows (df : List RawRow) : List PRow := df.map prepRow

def dateLe (a b : PRow) : Bool := decide (a.game_date ≤ b.game_date)

/-- `df = df.sort_values("GAME_DATE")` (line 27). -/
def sortByDate (l : List PRow) : List PRow := sortBy dateLe l

def mkS (p : PRow) (r : ℚ) : SRow :=
  ⟨p.entity_id, p.season_year, p.game_id, p.game_date, p.home_game, p.wlq, p.box, r⟩

/-- Rest days of every row after the first of `prev :: l`:
`GAME_DATE.diff().dt.days` (line 28). -/
def attachRestFrom (prev : PRow) : List PRow → List SRow
  | [] => []
  | y :: ys => mkS y ((y.game_date - prev.game_date : Int) : ℚ) :: attachRestFrom y ys

/-- `REST_DAYS = GAME_DATE.diff().dt.days.fillna(0)` on the date-sorted
frame (line 28): 0 for the first row, the day difference to the previous
row afterwards. -/
def attachRest : List PRow → List SRow
  | [] => []
  | x :: xs => mkS x 0 :: attachRestFrom x xs

/-- The date-sorted frame with all derived columns, as it stands after
line 28 of `nba_analyzer.py`. -/
def sortedRows (df : List RawRow) : List SRow := attachRest (sortByDate (prepRows df))

/-- Projection of a row to its `stats_cols` values. -/
def statVec (r : SRow) : StatVec := ⟨r.wlq, r.box, r.rest⟩

/-- Row addition, `cumulative_row + row` of line 49 (columnwise). -/
def StatVec.add (a b : StatVec) : StatVec :=
  ⟨a.wl + b.wl, a.box.zipWith (· + ·) b.box, a.rest + b.rest⟩

/-- Row division by the game count, `cumulative_row / games_played` of
line 50 (columnwise). -/
def StatVec.div (a : StatVec) (n : ℚ) : StatVec :=
  ⟨a.wl / n, a.box.map (· / n), a.rest / n⟩

/-- Sum of a list of stat rows (first element as the fold seed, matching
the accumulator initialisation of line 44). -/
def sumStat : List StatVec → StatVec
  | [] => dStat
  | x :: xs => xs.foldl StatVec.add x

/-- The loop body of lines 46–50: `n` games already accumulated in `cum`,
each further row extends the running sum and divides by the new count. -/
def runningAvgsAux (cum : StatVec) (n : Nat) : List StatVec → List StatVec
  | [] => []
  | x :: xs =>
      let c := cum.add x
      c.div ((n + 1 : Nat) : ℚ) :: runningAvgsAux c (n + 1) xs

/-- Lines 43–50: the first row of a season is emitted as is
(`season_rows = [season_games.iloc[0]]`), every later position emits the
cumulative sum so far divided by the number of games played. -/
def runningAvgs : List StatVec → List StatVec
  | [] => []
  | x :: xs => x :: runningAvgsAux x 1 xs

/-- `df["SEASON_YEAR"].unique()` on the date-sorted frame (line 38):
distinct season tokens in order of first appearance. -/
def seasonsOf (l : List SRow) : List String := dropDuplicates (l.map (·.season_year))

/-- The rows of one season of the date-sorted frame, in frame order
(`df[df["SEASON_YEAR"]==season]`, line 40). -/
def chronSeason (df : List RawRow) (sy : String) : List SRow :=
  (sortedRows df).filter (fun r => decide (r.season_year = sy))

/-- The per-season running averages (lines 40–50) of one season. -/
def seasonAvgs (df : List RawRow) (sy : String) : List StatVec :=
  runningAvgs ((chronSeason df sy).map statVec)

/-- One row of the returned frame: the `keep_cols` of lines 63–69 —
entity identifier, `GAME_ID`, `HOME_GAME`, the raw `stats_cols` values
and the `SEASON_AVG_` columns. -/
structure OutRow where
  entity_id : String
  game_id : String
  home_game : Nat
  raw : StatVec
  avg : StatVec
deriving DecidableEq, Repr

def dOut : OutRow := ⟨"", "", 0, dStat, dStat⟩

/-- `NBAAnalyzer.get_game_averages_df` (lines 21–71).  The per-season
average rows are concatenated season block after season block
(lines 38–52) and then attached to the date-sorted frame positionally:
the code gives the list of average rows the sorted frame's index
(line 55) and merges on it (lines 60–62), which pairs the k-th average
row with the k-th row of the sorted frame. -/
def get_game_averages_df (df : List RawRow) : List OutRow :=
  let s := sortedRows df
  let avgRows := (seasonsOf s).flatMap
    (fun sy => runningAvgs ((s.filter (fun r => decide (r.season_year = sy))).map statVec))
  s.zipWith (fun r a => ⟨r.entity_id, r.game_id, r.home_game, statVec r, a⟩) avgRows

/-! ## Data model of `NBAAnalyzer.update_player_df`

The player table handed to `update_player_df` is the season-average
player table, whose rows are `OutRow`s.  `exclude_cols` of line 108 are
`PLAYER_ID`, `GAME_ID`, `HOME_GAME` and `WL`; every other column — the
raw box-score statistics, `REST_DAYS`, and all `SEASON_AVG_` columns
(including `SEASON_AVG_WL` and `SEASON_AVG_REST_DAYS`) — receives the six
distribution summaries. -/

def sortVals (l : List ℚ) : List ℚ := sortBy (fun a b => decide (a ≤ b)) l

/-- `Series.mean()`. -/
def meanQ (l : List ℚ) : ℚ := l.sum / (l.length : ℚ)

/-- `Series.min()`. -/
def minQ : List ℚ → ℚ
  | [] => 0
  | x :: xs => xs.foldl min x

/-- `Series.max()`. -/
def maxQ : List ℚ → ℚ
  | [] => 0
  | x :: xs => xs.foldl max x

/-- `Series.quantile(q)` with the default linear interpolation: with the
values sorted ascending and `h = q*(n-1)`, the result is
`s[⌊h⌋] + (h-⌊h⌋)*(s[⌊h⌋+1] - s[⌊h⌋])`. -/
def quantileQ (l : List ℚ) (q : ℚ) : ℚ :=
  match sortVals l with
  | [] => 0
  | s =>
      let h : ℚ := q * ((s.length - 1 : Nat) : ℚ)
      let lo : Nat := (⌊h⌋).toNat
      let x0 := s.getD lo 0
      let x1 := s.getD (lo + 1) x0
      x0 + (h - ((⌊h⌋ : Int) : ℚ)) * (x1 - x0)

/-- The six distribution statistics computed for one column in
lines 135–141, in code order: mean, min, quantile 0.25, 0.5, 0.75, max. -/
structure SummaryStat where
  mean : ℚ
  min : ℚ
  q25 : ℚ
  q50 : ℚ
  q75 : ℚ
  max : ℚ
deriving DecidableEq, Repr

def mkSummary (vals : List ℚ) : SummaryStat :=
  ⟨meanQ vals, minQ vals, quantileQ vals (1/4), quantileQ vals (1/2),
   quantileQ vals (3/4), maxQ vals⟩

def dSum : SummaryStat := ⟨0, 0, 0, 0, 0, 0⟩

/-- The distribution columns of one ledger row: one `SummaryStat` per
summarised column.  `rawBoxD`/`rawRestD` summarise the raw box-score
statistics and `REST_DAYS`; `avgWlD`/`avgBoxD`/`avgRestD` summarise
`SEASON_AVG_WL`, the season-average box statistics and
`SEASON_AVG_REST_DAYS`. -/
structure DistCols where
  rawBoxD : List SummaryStat
  rawRestD : SummaryStat
  avgWlD : SummaryStat
  avgBoxD : List SummaryStat
  avgRestD : SummaryStat
deriving DecidableEq, Repr

/-- One row of the analyzed-games ledger: the `dist_cols` of
lines 111–114 — `GAME_ID`, `HOME_GAME`, `WL` and the distribution
columns. -/
structure DistRow where
  game_id : String
  home_game : Nat
  wl : ℚ
  cols : DistCols
deriving DecidableEq, Repr

def dDist : DistRow := ⟨"", 0, 0, ⟨[], dSum, dSum, [], dSum⟩⟩

/-- Width of the box-score statistic block of the player table
(`stats_cols` is taken from the table's column schema, line 109). -/
def boxWidth (pdf : List OutRow) : Nat :=
  match pdf with
  | [] => 0
  | r :: _ => r.raw.box.length

/-- Lines 135–141 for one team-side group: the six summaries of every
summarised column, computed across the group's rows. -/
def distCols (pdf : List OutRow) (rows : List OutRow) : DistCols :=
  let nBox := boxWidth pdf
  ⟨(List.range nBox).map (fun j => mkSummary (rows.map (fun r => r.raw.box.getD j 0))),
   mkSummary (rows.map (·.raw.rest)),
   mkSummary (rows.map (·.avg.wl)),
   (List.range nBox).map (fun j => mkSummary (rows.map (fun r => r.avg.box.getD j 0))),
   mkSummary (rows.map (·.avg.rest))⟩

/-- Lines 134–143 for one team-side group: assign the summary columns to
every row of the group, keep `dist_cols`, and `drop_duplicates`. -/
def sideDist (pdf : List OutRow) (rows : List OutRow) : List DistRow :=
  dropDuplicates (rows.map (fun r => ⟨r.game_id, r.home_game, r.raw.wl, distCols pdf rows⟩))

/-- `df_home` of line 131: the rows of one game with `HOME_GAME == 1`. -/
def homeRows (pdf : List OutRow) (gid : String) : List OutRow :=
  (pdf.filter (fun r => decide (r.game_id = gid))).filter (fun r => decide (r.home_game = 1))

/-- `df_away` of line 132: the rows of one game with `HOME_GAME == 0`. -/
def awayRows (pdf : List OutRow) (gid : String) : List OutRow :=
  (pdf.filter (fun r => decide (r.game_id = gid))).filter (fun r => decide (r.home_game = 0))

/-- The ledger rows appended for one game (the loop body of
lines 127–143): home side first, then away side. -/
def gameDistRows (pdf : List OutRow) (gid : String) : List DistRow :=
  sideDist pdf (homeRows pdf gid) ++ sideDist pdf (awayRows pdf gid)

/-- Lines 122–123: the game identifiers of the player table that are not
in the ledger (a set difference; the embedding fixes first-appearance
order for the unordered Python set iteration). -/
def newGameIds (pdf : List OutRow) (ledger : List DistRow) : List String :=
  (dropDuplicates (pdf.map (·.game_id))).filter
    (fun g => decide (g ∉ ledger.map (·.game_id)))

/-- `NBAAnalyzer.update_player_df` (lines 106–147) as a function of the
season-average player table and the previously persisted ledger,
returning the updated ledger (which the method both persists and keeps
as the new player table): the old ledger rows followed by the newly
computed rows of every game not yet in the ledger. -/
def update_player_df (pdf : List OutRow) (ledger : List DistRow) : List DistRow :=
  ledger ++ (newGameIds pdf ledger).flatMap (gameDistRows pdf)

/-! ## Data model of `NBAAnalyzer.clean_and_merge_dfs` -/

/-- A row of the merged team/player frame of line 154: the team columns
and, for the ledger row with the same `GAME_ID`, `HOME_GAME` and `WL`,
its distribution columns (the three key columns are shared). -/
structure MRow where
  t : OutRow
  d : DistCols
deriving DecidableEq, Repr

/-- Lines 151–152: keep the team rows whose game identifier occurs in
exactly two rows of the team table. -/
def keptRows (team_df : List OutRow) : List OutRow :=
  team_df.filter
    (fun r => decide (team_df.countP (fun x => decide (x.game_id = r.game_id)) = 2))

/-- Line 154: inner merge of the filtered team table with the player
ledger on `["GAME_ID", "HOME_GAME", "WL"]`, each left row paired with
every matching right row. -/
def mergedTP (team_df : List OutRow) (pdf : List DistRow) : List MRow :=
  (keptRows team_df).flatMap (fun t =>
    (pdf.filter (fun p =>
        decide (p.game_id = t.game_id ∧ p.home_game = t.home_game ∧ p.wl = t.raw.wl))).map
      (fun p => ⟨t, p.cols⟩))

/-- Lexicographic comparison on `(TEAM_ID, GAME_ID)` for the sort of
line 156. -/
def teamGameLe (a b : MRow) : Bool :=
  match compare a.t.entity_id b.t.entity_id with
  | .lt => true
  | .gt => false
  | .eq => !(compare a.t.game_id b.t.game_id == .gt)

/-- Line 156: `df.sort_values(by=["TEAM_ID","GAME_ID"])`. -/
def sortedMerged (team_df : List OutRow) (pdf : List DistRow) : List MRow :=
  sortBy teamGameLe (mergedTP team_df pdf)

/-- A merged row with the shifted columns of lines 157–158 attached:
`GAME_ID_JOIN`, `HOME_GAME_CURR` and `WL_PRED` are the identifiers and
outcome of the entity's next row in the frame, missing (`NaN`) for the
entity's last row. -/
structure ShiftRow where
  base : MRow
  gidJoin : Option String
  homeCurr : Option Nat
  wlPred : Option ℚ
deriving DecidableEq, Repr

/-- `groupby("TEAM_ID").shift(-1)` (lines 157–158): each row receives
the values of the next row of the same team in frame order. -/
def withShift : List MRow → List ShiftRow
  | [] => []
  | x :: xs =>
      let nxt := xs.find? (fun y => decide (y.t.entity_id = x.t.entity_id))
      ⟨x, nxt.map (·.t.game_id), nxt.map (·.t.home_game), nxt.map (·.t.raw.wl)⟩
        :: withShift xs

def shiftedRows (team_df : List OutRow) (pdf : List DistRow) : List ShiftRow :=
  withShift (sortedMerged team_df pdf)

/-- `home_df` of line 160: rows whose current game was a home game. -/
def shiftHome (team_df : List OutRow) (pdf : List DistRow) : List ShiftRow :=
  (shiftedRows team_df pdf).filter (fun r => decide (r.base.t.home_game = 1))

/-- `away_df` of line 161: rows whose current game was an away game. -/
def shiftAway (team_df : List OutRow) (pdf : List DistRow) : List ShiftRow :=
  (shiftedRows team_df pdf).filter (fun r => decide (r.base.t.home_game = 0))

/-- Lines 163–165: inner merge of `home_df` and `away_df` on
`GAME_ID_JOIN`.  `pd.merge` pairs missing (`NaN`) keys with each other,
so two rows both lacking a next game also match; the embedding mirrors
this with equality of `Option` keys. -/
def trainPairs (team_df : List OutRow) (pdf : List DistRow) :
    List (ShiftRow × ShiftRow) :=
  (shiftHome team_df pdf).flatMap (fun h =>
    ((shiftAway team_df pdf).filter (fun a => decide (a.gidJoin = h.gidJoin))).map
      (fun a => (h, a)))

/-- The columns of one side that survive the drop of lines 167–171:
everything except the `TEAM_ID`-, `GAME_ID`-prefixed columns and
`WL_PRED_AWAY` (the `WL` column is `raw.wl`; `TEAM_ABBREVIATION` is
folded into the dropped entity identifier). -/
structure SideCols where
  home_game : Nat
  raw : StatVec
  avg : StatVec
  dist : DistCols
  homeCurr : Option Nat
deriving DecidableEq, Repr

/-- One row of the final training table. -/
structure TrainRow where
  home_side : SideCols
  away_side : SideCols
  wl_pred : Option ℚ
deriving DecidableEq, Repr

def sideOf (r : ShiftRow) : SideCols :=
  ⟨r.base.t.home_game, r.base.t.raw, r.base.t.avg, r.base.d, r.homeCurr⟩

def dTrain : TrainRow := ⟨sideOf ⟨⟨dOut, ⟨[], dSum, dSum, [], dSum⟩⟩, none, none, none⟩,
  sideOf ⟨⟨dOut, ⟨[], dSum, dSum, [], dSum⟩⟩, none, none, none⟩, none⟩

/-- `NBAAnalyzer.clean_and_merge_dfs` (lines 149–172) as a function of
the team table and the player ledger, returning the merged training
table. -/
def clean_and_merge_dfs (team_df : List OutRow) (pdf : List DistRow) : List TrainRow :=
  (trainPairs team_df pdf).map (fun p => ⟨sideOf p.1, sideOf p.2, p.1.wlPred⟩)

/-! ## Data model of `NBADataFeed` (nba_datafeed.py)

Only the parts the claims need: `get_all_team_games` and
`get_all_games`.  The filesystem is a map from `(directory, file name)`
keys to stored tables; the remote API is passed in as a function from a
team identifier to the fetched (already cleaned) table. -/

/-- One stored game row of a team table; `payload` stands for the
remaining columns, which these two methods never inspect. -/
structure FeedRow where
  team_id : String
  game_id : String
  payload : List String
deriving DecidableEq, Repr

/-- The filesystem: an association list from `(directory, file name)`
to the stored table. -/
structure FS where
  files : List ((String × String) × List FeedRow)
deriving DecidableEq, Repr

def FS.read (fs : FS) (k : String × String) : Option (List FeedRow) :=
  (fs.files.find? (fun e => decide (e.1 = k))).map (·.2)

def FS.write (fs : FS) (k : String × String) (t : List FeedRow) : FS :=
  ⟨(fs.files.filter (fun e => decide (e.1 ≠ k))) ++ [(k, t)]⟩

def FS.listdir (fs : FS) (d : String) : List String :=
  (fs.files.filter (fun e => decide (e.1.1 = d))).map (·.1.2)

/-- The configuration of `NBADataFeed.__init__`. -/
structure NBADataFeed where
  player_games_dir : String
  team_games_dir : String
  preexisting_games_path : String
deriving DecidableEq, Repr

/-- `NBADataFeed.get_all_team_games` (lines 45–62): for every current
team, fetch its games and write the deduplicated union with any existing
table at the path — which line 56 builds from `self.player_games_dir`
and the fetched table's first `TEAM_ID` value. -/
def get_all_team_games (feed : NBADataFeed) (teamIds : List String)
    (fetch : String → List FeedRow) (fs : FS) : FS :=
  teamIds.foldl (fun fs tid =>
    let df := fetch tid
    let key := (feed.player_games_dir, (df.headD ⟨"", "", []⟩).team_id ++ ".csv")
    let df' := match fs.read key with
      | some old => dropDuplicates (old ++ df)
      | none => df
    fs.write key df') fs

/-- `NBADataFeed.get_all_games` (lines 64–80): the deduplicated
concatenation of the `GAME_ID` columns of every file in
`self.team_games_dir`. -/
def get_all_games (feed : NBADataFeed) (fs : FS) : List String :=
  dropDuplicates ((fs.listdir feed.team_games_dir).flatMap (fun n =>
    ((fs.read (feed.team_games_dir, n)).getD []).map (·.game_id)))

/-! ## Concrete tables used to evaluate the pipeline -/

/-- A team-table row with a single stat column, for concrete runs of
`clean_and_merge_dfs`. -/
def tRow (e g : String) (h : Nat) (w : ℚ) : OutRow := ⟨e, g, h, ⟨w, [], 0⟩, ⟨w, [], 0⟩⟩

/-- A ledger row with empty distribution payload, for concrete runs of
`clean_and_merge_dfs`. -/
def lRow (g : String) (h : Nat) (w : ℚ) : DistRow := ⟨g, h, w, ⟨[], dSum, dSum, [], dSum⟩⟩

/-- A player-table row with one raw and one season-average box column. -/
def pRow (pid g : String) (h : Nat) (w raw av : ℚ) : OutRow :=
  ⟨pid, g, h, ⟨w, [raw], 0⟩, ⟨w, [av], 0⟩⟩

/-- One entity whose seasons interleave in date order: the 2001 season
has games on days 0 and 2, the 2002 season a game on day 1. -/
def exC1 : List RawRow :=
  [⟨"E", "12001", "G1", 0, "X vs. Y", "W", [10]⟩,
   ⟨"E", "12002", "G2", 1, "X vs. Y", "L", [20]⟩,
   ⟨"E", "12001", "G3", 2, "X vs. Y", "W", [40]⟩]

/-- One entity with two seasons in contiguous date blocks. -/
def exC1w : List RawRow :=
  [⟨"E", "12001", "G1", 0, "X vs. Y", "W", [10]⟩,
   ⟨"E", "12001", "G2", 1, "X @ Y", "L", [30]⟩,
   ⟨"E", "12002", "G3", 10, "X vs. Y", "W", [50]⟩,
   ⟨"E", "12002", "G4", 11, "X @ Y", "L", [70]⟩]

/-- The season blocks of `exC1w` in its date-sorted order. -/
def exC1Blocks : List (String × List SRow) :=
  [("2001", (sortedRows exC1w).take 2), ("2002", (sortedRows exC1w).drop 2)]

/-- Teams `A` and `B` are about to play each other in game `G3`, but
their current games differ: `A` last played (at home) in `G1` against
`C`, `B` last played (away) in `G2` against `D`. -/
def exC2T : List OutRow :=
  [tRow "A" "G1" 1 1, tRow "C" "G1" 0 0,
   tRow "D" "G2" 1 1, tRow "B" "G2" 0 0,
   tRow "A" "G3" 1 0, tRow "B" "G3" 0 1]

def exC2L : List DistRow :=
  [lRow "G1" 1 1, lRow "G1" 0 0, lRow "G2" 1 1, lRow "G2" 0 0,
   lRow "G3" 1 0, lRow "G3" 0 1]

def dPair : ShiftRow × ShiftRow :=
  (⟨⟨dOut, ⟨[], dSum, dSum, [], dSum⟩⟩, none, none, none⟩,
   ⟨⟨dOut, ⟨[], dSum, dSum, [], dSum⟩⟩, none, none, none⟩)

/-- A team table with a single completed game: both of its rows are
end-of-history rows (neither team has a next game). -/
def exC3T : List OutRow := [tRow "A" "G1" 1 1, tRow "B" "G1" 0 0]

def exC3L : List DistRow := [lRow "G1" 1 1, lRow "G1" 0 0]

def exFeed : NBADataFeed := ⟨"players", "teams", "pre"⟩

def exFetch : String → List FeedRow := fun _ => [⟨"T1", "GX", []⟩]

def exFS : FS := ⟨[]⟩

/-- A player table whose only game is already in the ledger `exC5L`. -/
def exC5P : List OutRow := [pRow "P1" "G1" 1 1 2 5, pRow "P2" "G1" 0 0 4 7]

def exC5L : List DistRow := update_player_df exC5P []

/-- A game whose player rows all belong to the home side. -/
def exC6 : List OutRow := [pRow "P1" "G1" 1 1 2 5, pRow "P2" "G1" 1 1 4 7]

/-- A game with player rows on both sides. -/
def exC6w : List OutRow :=
  [pRow "P1" "G1" 1 1 2 5, pRow "P2" "G1" 1 1 4 7, pRow "P3" "G1" 0 0 6 9]

/-- Four home-side players whose season-average statistic takes the
values 1, 2, 3, 4, plus one away-side player. -/
def exC7 : List OutRow :=
  [pRow "P1" "G7" 1 1 0 1, pRow "P2" "G7" 1 1 0 2,
   pRow "P3" "G7" 1 1 0 3, pRow "P4" "G7" 1 1 0 4,
   pRow "P5" "G7" 0 0 0 7]

/-- Two tables with identical season-2002 rows; only the date of the
prior-season game differs (day 0 versus day 50). -/
def exC8a : List RawRow :=
  [⟨"E", "12001", "G0", 0, "X vs. Y", "W", [10]⟩,
   ⟨"E", "12002", "G1", 100, "X vs. Y", "W", [10]⟩]

def exC8b : List RawRow :=
  [⟨"E", "12001", "G0", 50, "X vs. Y", "W", [10]⟩,
   ⟨"E", "12002", "G1", 100, "X vs. Y", "W", [10]⟩]

/-- Two games of one entity, in different seasons, three calendar days
apart. -/
def exC9 : List RawRow :=
  [⟨"E", "12001", "G1", 7, "X @ Y", "L", [10]⟩,
   ⟨"E", "12002", "G2", 10, "X vs. Y", "W", [20]⟩]

/-- A team table in which game `G1` has two rows that both carry home
flag 1, and game `G9` only one row. -/
def exC10 : List OutRow := [tRow "A" "G1" 1 1, tRow "B" "G1" 1 0, tRow "C" "G9" 1 1]

/-- A decomposition of a sorted frame into nonempty single-season blocks
with pairwise-distinct season tokens: the hypothesis that the seasons'
date ranges do not interleave, so each season occupies one contiguous
block of the date-sorted frame. -/
def goodBlocks (blocks : List (String × List SRow)) : Prop :=
  (∀ b ∈ blocks, b.2 ≠ [] ∧ ∀ r ∈ b.2, r.season_year = b.1) ∧
  (blocks.map (·.1)).Nodup

/-- The components of a stat row that do not come from the derived
`REST_DAYS` column. -/
def nonRest (v : StatVec) : ℚ × List ℚ := (v.wl, v.box)

/-- The fields of a sorted-frame row that are copied from the raw input
row (everything except the derived `REST_DAYS`), with the summarised
`WL` and box statistics first. -/
def rawView (r : SRow) : (ℚ × List ℚ) × String × String × String × Int × Nat :=
  ((r.wlq, r.box), r.entity_id, r.season_year, r.game_id, r.game_date, r.home_game)

/-! ## Helper lemmas -/

theorem map_div_one (l : List ℚ) : l.map (· / 1) = l := by
  induction l with
  | nil => rfl
  | cons x xs ih => simp [ih]

theorem statVec_div_one (v : StatVec) : v.div 1 = v := by
  cases v
  simp [StatVec.div, map_div_one]

theorem length_attachRestFrom (xs : List PRow) :
    ∀ prev, (attachRestFrom prev xs).length = xs.length := by
  induction xs with
  | nil => intro prev; rfl
  | cons y ys ih => intro prev; simp [attachRestFrom, ih]

theorem length_attachRest (l : List PRow) : (attachRest l).length = l.length := by
  cases l with
  | nil => rfl
  | cons x xs => simp [attachRest, length_attachRestFrom]

theorem attachRestFrom_getD (xs : List PRow) :
    ∀ (prev : PRow) (k : Nat), k < xs.length →
      (attachRestFrom prev xs).getD k dSRow =
        mkS (xs.getD k dPRow)
          (((xs.getD k dPRow).game_date - ((prev :: xs).getD k dPRow).game_date : Int) : ℚ) := by
  induction xs with
  | nil => intro prev k h; simp at h
  | cons y ys ih =>
    intro prev k h
    cases k with
    | zero => simp [attachRestFrom]
    | succ k =>
      simp only [attachRestFrom, List.getD_cons_succ]
      exact ih y k (by simpa using h)

theorem length_runningAvgsAux (xs : List StatVec) :
    ∀ cum n, (runningAvgsAux cum n xs).length = xs.length := by
  induction xs with
  | nil => intro cum n; rfl
  | cons x t ih => intro cum n; simp [runningAvgsAux, ih]

theorem length_runningAvgs (l : List StatVec) : (runningAvgs l).length = l.length := by
  cases l with
  | nil => rfl
  | cons x t => simp [runningAvgs, length_runningAvgsAux]

theorem runningAvgsAux_getD (xs : List StatVec) :
    ∀ (cum : StatVec) (n k : Nat), k < xs.length →
      (runningAvgsAux cum n xs).getD k dStat
        = ((xs.take (k + 1)).foldl StatVec.add cum).div ((n + k + 1 : Nat) : ℚ) := by
  induction xs with
  | nil => intro cum n k h; simp at h
  | cons x t ih =>
    intro cum n k h
    cases k with
    | zero => simp [runningAvgsAux]
    | succ k =>
      simp only [runningAvgsAux, List.getD_cons_succ, List.take_succ_cons, List.foldl_cons]
      rw [ih (cum.add x) (n + 1) k (by simpa using h)]
      congr 2
      omega

theorem runningAvgs_getD (l : List StatVec) (i : Nat) (h : i < l.length) :
    (runningAvgs l).getD i dStat = (sumStat (l.take (i + 1))).div ((i + 1 : Nat) : ℚ) := by
  cases l with
  | nil => simp at h
  | cons x t =>
    cases i with
    | zero => simp [runningAvgs, sumStat, statVec_div_one]
    | succ i =>
      simp only [runningAvgs, List.getD_cons_succ, List.take_succ_cons, sumStat]
      rw [runningAvgsAux_getD t x 1 i (by simpa using h)]
      congr 2
      omega

theorem mem_of_mem_dropDupSeen {α : Type} [DecidableEq α] :
    ∀ (l : List α) (seen : List α) (a : α), a ∈ dropDupSeen seen l → a ∈ l := by
  intro l
  induction l with
  | nil => intro seen a h; simp [dropDupSeen] at h
  | cons x xs ih =>
    intro seen a h
    simp only [dropDupSeen] at h
    split at h
    · exact List.mem_cons_of_mem x (ih seen a h)
    · rcases List.mem_cons.1 h with rfl | h'
      · exact List.mem_cons_self a xs
      · exact List.mem_cons_of_mem x (ih (x :: seen) a h')

theorem mem_of_mem_dropDuplicates {α : Type} [DecidableEq α] (l : List α) (a : α)
    (h : a ∈ dropDuplicates l) : a ∈ l :=
  mem_of_mem_dropDupSeen l [] a h

theorem dropDupSeen_skip {α : Type} [DecidableEq α] :
    ∀ (ys : List α) (l seen : List α), (∀ x ∈ ys, x ∈ seen) →
      dropDupSeen seen (ys ++ l) = dropDupSeen seen l := by
  intro ys
  induction ys with
  | nil => intro l seen _; rfl
  | cons y ys ih =>
    intro l seen h
    have hy : y ∈ seen := h y (List.mem_cons_self y ys)
    simp only [List.cons_append, dropDupSeen, if_pos hy]
    exact ih l seen (fun x hx => h x (List.mem_cons_of_mem y hx))

theorem dropDupSeen_congr {α : Type} [DecidableEq α] :
    ∀ (l : List α) (s1 s2 : List α), (∀ y, y ∈ s1 ↔ y ∈ s2) →
      dropDupSeen s1 l = dropDupSeen s2 l := by
  intro l
  induction l with
  | nil => intro s1 s2 _; rfl
  | cons x xs ih =>
    intro s1 s2 h
    simp only [dropDupSeen]
    by_cases hx : x ∈ s1
    · rw [if_pos hx, if_pos ((h x).1 hx)]
      exact ih s1 s2 h
    · rw [if_neg hx, if_neg (fun hc => hx ((h x).2 hc))]
      refine congrArg (x :: ·) (ih (x :: s1) (x :: s2) (fun y => ?_))
      simp [h y]

theorem dropDupSeen_const_append {α : Type} [DecidableEq α] (l1 l2 : List α) (a : α)
    (seen : List α) (hne : l1 ≠ []) (hall : ∀ x ∈ l1, x = a) (ha : a ∉ seen) :
    dropDupSeen seen (l1 ++ l2) = a :: dropDupSeen (a :: seen) l2 := by
  cases l1 with
  | nil => exact absurd rfl hne
  | cons x xs =>
    have hx : x = a := hall x (List.mem_cons_self x xs)
    subst hx
    simp only [List.cons_append, dropDupSeen, if_neg ha]
    refine congrArg (x :: ·) ?_
    exact dropDupSeen_skip xs l2 (x :: seen)
      (fun y hy => by rw [hall y (List.mem_cons_of_mem x hy)]; exact List.mem_cons_self x seen)

theorem dropDuplicates_eq_single {α : Type} [DecidableEq α] (l : List α) (a : α)
    (hne : l ≠ []) (hall : ∀ x ∈ l, x = a) : dropDuplicates l = [a] := by
  rw [dropDuplicates, show l = l ++ [] by simp,
      dropDupSeen_const_append l [] a [] hne hall (by simp)]
  rfl

/-! ## Claims -/

/-- **C10**: the incomplete-game filter at the start of
`clean_and_merge_dfs` keeps a team row exactly when the team table has
exactly two rows with its game identifier; the predicate never looks at
home/away flags. -/
theorem C10_keep_iff (team_df : List OutRow) (r : OutRow) :
    r ∈ keptRows team_df ↔
      r ∈ team_df ∧ team_df.countP (fun x => decide (x.game_id = r.game_id)) = 2 := by
  simp [keptRows, List.mem_filter]

/-- Witness for C10 at a table in which game `G1` has two rows that both
carry home flag 1: the same-flag game passes the filter. -/
theorem C10_keep_iff_witness : tRow "A" "G1" 1 1 ∈ keptRows exC10 :=
  (C10_keep_iff exC10 (tRow "A" "G1" 1 1)).2 (by with_unfolding_all decide)

/-- **C9**: in the date-sorted frame of `get_game_averages_df`, the
first row's rest days are 0 and every later row's rest days equal the
day difference to the immediately preceding row, across season
boundaries. -/
theorem attachRest_rest (l : List PRow) (k : Nat) (hk : k < (attachRest l).length) :
    (k = 0 → ((attachRest l).getD 0 dSRow).rest = 0) ∧
    (∀ j, k = j + 1 →
      ((attachRest l).getD k dSRow).rest =
        ((((attachRest l).getD k dSRow).game_date
            - ((attachRest l).getD j dSRow).game_date : Int) : ℚ)) := by
  cases l with
  | nil => simp [attachRest] at hk
  | cons x xs =>
    constructor
    · intro _
      simp [attachRest, mkS]
    · intro j hkj
      subst hkj
      have hj : j < xs.length := by
        simp only [attachRest, List.length_cons, length_attachRestFrom] at hk
        omega
      simp only [attachRest, List.getD_cons_succ]
      rw [attachRestFrom_getD xs x j hj]
      cases j with
      | zero => simp [mkS]
      | succ j' =>
        simp only [List.getD_cons_succ]
        rw [attachRestFrom_getD xs x j' (by omega)]
        simp [mkS]

theorem C9_rest_days (df : List RawRow) (k : Nat) (hk : k < (sortedRows df).length) :
    (k = 0 → ((sortedRows df).getD 0 dSRow).rest = 0) ∧
    (∀ j, k = j + 1 →
      ((sortedRows df).getD k dSRow).rest =
        ((((sortedRows df).getD k dSRow).game_date
            - ((sortedRows df).getD j dSRow).game_date : Int) : ℚ)) :=
  attachRest_rest (sortByDate (prepRows df)) k hk

/-- Witness for C9: a first game with rest days 0 and a game three
calendar days after the previous one (in another season) with rest
days 3. -/
theorem C9_rest_days_witness :
    ((sortedRows exC9).getD 0 dSRow).rest = 0 ∧
    ((sortedRows exC9).getD 1 dSRow).rest = 3 := by
  refine ⟨(C9_rest_days exC9 0 (by with_unfolding_all decide)).1 rfl, ?_⟩
  rw [(C9_rest_days exC9 1 (by with_unfolding_all decide)).2 0 rfl]
  with_unfolding_all decide

/-- **C5**: `update_player_df` never touches existing ledger rows (they
form the initial segment of the result unchanged), and when every game
identifier of the player table is already in the ledger the resulting
ledger equals the prior ledger row for row. -/
theorem C5_idempotent (pdf : List OutRow) (ledger : List DistRow) :
    (update_player_df pdf ledger).take ledger.length = ledger ∧
    ((∀ g ∈ pdf.map (·.game_id), g ∈ ledger.map (·.game_id)) →
      update_player_df pdf ledger = ledger) := by
  constructor
  · rw [update_player_df]
    exact List.take_left ledger _
  · intro h
    have hnil : newGameIds pdf ledger = [] := by
      rw [newGameIds]
      apply List.filter_eq_nil_iff.2
      intro g hg
      simp only [decide_eq_true_eq, not_not]
      exact h g (mem_of_mem_dropDuplicates _ g hg)
    rw [update_player_df, hnil]
    simp

/-- Witness for C5: rerunning on a player table whose only game is
already in the ledger returns the ledger unchanged. -/
theorem C5_idempotent_witness : update_player_df exC5P exC5L = exC5L :=
  (C5_idempotent exC5P exC5L).2 (by with_unfolding_all decide)

/-- **C7**: four players whose season-average statistic takes the values
1, 2, 3, 4 produce the distribution summary
mean 5/2, min 1, q25 7/4, q50 5/2, q75 13/4, max 4 for that statistic in
the team-side row appended by `update_player_df`. -/
theorem C7_percentiles :
    ((update_player_df exC7 []).headD dDist).cols.avgBoxD.getD 0 dSum
      = ⟨5/2, 1, 7/4, 5/2, 13/4, 4⟩ := by
  with_unfolding_all decide

/-- **C3** (code bug): the merged table of `clean_and_merge_dfs` does
contain end-of-history rows.  With a single completed game, both team
rows lack a next game, their shifted join keys are both missing, and
`pd.merge` pairs missing keys with each other, so the final table holds
one row whose target label is undefined — the claim (and the spec's
stated intent that such rows are unusable for training and dropped) says
it must not appear. -/
theorem C3_code_bug :
    (clean_and_merge_dfs exC3T exC3L).length = 1 ∧
    ((clean_and_merge_dfs exC3T exC3L).headD dTrain).wl_pred = none := by
  with_unfolding_all decide

/-- **C4** (code bug): `get_all_team_games` builds its output path from
`self.player_games_dir` (line 56 of `nba_datafeed.py`), so the fetched
team table lands in the player-table store; the team-table store that
`get_all_games` reads stays empty and the freshly fetched game
identifier is absent from `get_all_games`'s result. -/
theorem C4_code_bug :
    (get_all_team_games exFeed ["T1"] exFetch exFS).read ("players", "T1.csv")
        = some [⟨"T1", "GX", []⟩] ∧
    (get_all_team_games exFeed ["T1"] exFetch exFS).read ("teams", "T1.csv") = none ∧
    get_all_games exFeed (get_all_team_games exFeed ["T1"] exFetch exFS) = [] := by
  with_unfolding_all decide

theorem homeRows_mem (pdf : List OutRow) (gid : String) (r : OutRow)
    (h : r ∈ homeRows pdf gid) : r.game_id = gid ∧ r.home_game = 1 := by
  rw [homeRows] at h
  obtain ⟨h1, h2⟩ := List.mem_filter.1 h
  obtain ⟨_, h4⟩ := List.mem_filter.1 h1
  exact ⟨of_decide_eq_true h4, of_decide_eq_true h2⟩

theorem awayRows_mem (pdf : List OutRow) (gid : String) (r : OutRow)
    (h : r ∈ awayRows pdf gid) : r.game_id = gid ∧ r.home_game = 0 := by
  rw [awayRows] at h
  obtain ⟨h1, h2⟩ := List.mem_filter.1 h
  obtain ⟨_, h4⟩ := List.mem_filter.1 h1
  exact ⟨of_decide_eq_true h4, of_decide_eq_true h2⟩

theorem sideDist_eq_single (pdf : List OutRow) (rows : List OutRow) (gid : String)
    (hg : Nat) (w : ℚ) (hne : rows ≠ [])
    (hall : ∀ r ∈ rows, r.game_id = gid ∧ r.home_game = hg ∧ r.raw.wl = w) :
    sideDist pdf rows = [⟨gid, hg, w, distCols pdf rows⟩] := by
  rw [sideDist]
  apply dropDuplicates_eq_single
  · simpa using hne
  · intro x hx
    obtain ⟨r, hr, rfl⟩ := List.mem_map.1 hx
    obtain ⟨e1, e2, e3⟩ := hall r hr
    simp [e1, e2, e3]

/-- **C6** (counterexample to the claim as stated): `update_player_df`
does not always append exactly two rows per new game, and the appended
rows do not carry only season-average summaries.  On `exC6` — one new
game whose player rows all belong to the home side — a single row is
appended, and it carries distribution summaries of the raw statistics as
well (its raw-statistic summary block is nonempty). -/
theorem C6_counterexample :
    (update_player_df exC6 []).length = 1 ∧
    ((update_player_df exC6 []).headD dDist).cols.rawBoxD.length = 1 := by
  with_unfolding_all decide

/-- **C6** (amended): for each game identifier absent from the ledger,
`update_player_df` appends one row per team side whose player group is
nonempty — two rows when both sides have players — provided each side's
rows agree on the win/loss value; each appended row holds the game
identifier, the side's home/away flag and win/loss value, and the six
distribution summaries (mean, min, 25th/50th/75th percentile, max) of
every non-identifying column: the raw box-score statistics, rest days,
and all season-average statistics. -/
theorem C6_amended (pdf : List OutRow) (ledger : List DistRow) (gid : String)
    (_hnew : gid ∈ newGameIds pdf ledger)
    (hh : homeRows pdf gid ≠ []) (ha : awayRows pdf gid ≠ [])
    (hwh : ∀ r ∈ homeRows pdf gid, r.raw.wl = ((homeRows pdf gid).headD dOut).raw.wl)
    (hwa : ∀ r ∈ awayRows pdf gid, r.raw.wl = ((awayRows pdf gid).headD dOut).raw.wl) :
    gameDistRows pdf gid =
      [⟨gid, 1, ((homeRows pdf gid).headD dOut).raw.wl, distCols pdf (homeRows pdf gid)⟩,
       ⟨gid, 0, ((awayRows pdf gid).headD dOut).raw.wl, distCols pdf (awayRows pdf gid)⟩] ∧
    update_player_df pdf ledger
      = ledger ++ (newGameIds pdf ledger).flatMap (gameDistRows pdf) := by
  refine ⟨?_, rfl⟩
  rw [gameDistRows,
      sideDist_eq_single pdf (homeRows pdf gid) gid 1 _ hh
        (fun r hr => ⟨(homeRows_mem pdf gid r hr).1, (homeRows_mem pdf gid r hr).2, hwh r hr⟩),
      sideDist_eq_single pdf (awayRows pdf gid) gid 0 _ ha
        (fun r hr => ⟨(awayRows_mem pdf gid r hr).1, (awayRows_mem pdf gid r hr).2, hwa r hr⟩)]
  rfl

/-- Witness for the amended C6 at a new game with players on both
sides: exactly two rows are appended, home side first. -/
theorem C6_amended_witness :
    gameDistRows exC6w "G1" =
      [⟨"G1", 1, ((homeRows exC6w "G1").headD dOut).raw.wl,
         distCols exC6w (homeRows exC6w "G1")⟩,
       ⟨"G1", 0, ((awayRows exC6w "G1").headD dOut).raw.wl,
         distCols exC6w (awayRows exC6w "G1")⟩] ∧
    update_player_df exC6w [] = [] ++ (newGameIds exC6w []).flatMap (gameDistRows exC6w) :=
  C6_amended exC6w [] "G1" (by with_unfolding_all decide) (by with_unfolding_all decide)
    (by with_unfolding_all decide) (by with_unfolding_all decide)
    (by with_unfolding_all decide)

theorem seasonsOf_flatten_aux :
    ∀ (blocks : List (String × List SRow)) (seen : List String),
      (∀ b ∈ blocks, b.2 ≠ [] ∧ ∀ r ∈ b.2, r.season_year = b.1) →
      (blocks.map (·.1)).Nodup →
      (∀ b ∈ blocks, b.1 ∉ seen) →
      dropDupSeen seen (((blocks.map (·.2)).flatten).map (·.season_year))
        = blocks.map (·.1) := by
  intro blocks
  induction blocks with
  | nil => intro seen _ _ _; rfl
  | cons b rest ih =>
    intro seen hgood hnodup hseen
    rw [List.map_cons, List.nodup_cons] at hnodup
    obtain ⟨hne, hconst⟩ := hgood b (List.mem_cons_self b rest)
    simp only [List.map_cons, List.flatten_cons, List.map_append]
    rw [dropDupSeen_const_append (b.2.map (·.season_year)) _ b.1 seen
        (by simpa using hne)
        (fun x hx => by
          obtain ⟨r, hr, rfl⟩ := List.mem_map.1 hx
          exact hconst r hr)
        (hseen b (List.mem_cons_self b rest))]
    refine congrArg (b.1 :: ·) ?_
    apply ih (b.1 :: seen)
    · intro b' hb'
      exact hgood b' (List.mem_cons_of_mem b hb')
    · exact hnodup.2
    · intro b' hb'
      have hne1 : b'.1 ≠ b.1 := by
        intro hEq
        exact hnodup.1 (hEq ▸ List.mem_map_of_mem (·.1) hb')
      simp only [List.mem_cons, not_or]
      exact ⟨hne1, hseen b' (List.mem_cons_of_mem b hb')⟩

theorem seasonsOf_flatten (blocks : List (String × List SRow)) (hb : goodBlocks blocks) :
    seasonsOf ((blocks.map (·.2)).flatten) = blocks.map (·.1) := by
  rw [seasonsOf, dropDuplicates]
  exact seasonsOf_flatten_aux blocks [] hb.1 hb.2 (by simp)

theorem filter_flatten_block :
    ∀ (blocks : List (String × List SRow)),
      (∀ b ∈ blocks, ∀ r ∈ b.2, r.season_year = b.1) →
      (blocks.map (·.1)).Nodup →
      ∀ b ∈ blocks,
        ((blocks.map (·.2)).flatten).filter (fun r => decide (r.season_year = b.1)) = b.2 := by
  intro blocks
  induction blocks with
  | nil => intro _ _ b hb; simp at hb
  | cons c rest ih =>
    intro hgood hnodup b hmem
    rw [List.map_cons, List.nodup_cons] at hnodup
    simp only [List.map_cons, List.flatten_cons, List.filter_append]
    rcases List.mem_cons.1 hmem with rfl | hmem2
    · have h1 : b.2.filter (fun r => decide (r.season_year = b.1)) = b.2 :=
        List.filter_eq_self.2
          (fun r hr => by simp [hgood b (List.mem_cons_self b rest) r hr])
      have h2 : ((rest.map (·.2)).flatten).filter
          (fun r => decide (r.season_year = b.1)) = [] := by
        apply List.filter_eq_nil_iff.2
        intro r hr
        obtain ⟨l, hl, hrl⟩ := List.mem_flatten.1 hr
        obtain ⟨b2, hb2, rfl⟩ := List.mem_map.1 hl
        have hsy : r.season_year = b2.1 := hgood b2 (List.mem_cons_of_mem b hb2) r hrl
        have hne : b2.1 ≠ b.1 := by
          intro hEq
          exact hnodup.1 (hEq ▸ List.mem_map_of_mem (·.1) hb2)
        simp [hsy, hne]
      rw [h1, h2, List.append_nil]
    · have hne : ∀ r ∈ c.2, r.season_year ≠ b.1 := by
        intro r hr hEq
        have hsy : r.season_year = c.1 := hgood c (List.mem_cons_self c rest) r hr
        exact hnodup.1 ((hsy ▸ hEq) ▸ List.mem_map_of_mem (·.1) hmem2)
      have h1 : c.2.filter (fun r => decide (r.season_year = b.1)) = [] :=
        List.filter_eq_nil_iff.2 (fun r hr => by simp [hne r hr])
      rw [h1, List.nil_append]
      exact ih (fun b2 hb2 => hgood b2 (List.mem_cons_of_mem c hb2)) hnodup.2 b hmem2

theorem zipWith_flatten_blocks (f : SRow → StatVec → OutRow) :
    ∀ (blocks : List (String × List SRow)),
      List.zipWith f ((blocks.map (·.2)).flatten)
          (blocks.flatMap (fun b => runningAvgs (b.2.map statVec)))
        = blocks.flatMap (fun b => List.zipWith f b.2 (runningAvgs (b.2.map statVec))) := by
  intro blocks
  induction blocks with
  | nil => rfl
  | cons b rest ih =>
    simp only [List.map_cons, List.flatten_cons, List.flatMap_cons]
    rw [List.zipWith_append f _ _ _ _ (by simp [length_runningAvgs]), ih]

/-- **C1** (counterexample to the claim as stated): on an input table
whose seasons interleave in date order, the positional attachment of
lines 54–62 pairs average rows with the wrong input rows.  In `exC1`,
game `G2` is the first (and only) chronological row of season 2002, so
the claim requires the output row carrying `G2` to have its own raw
values as its average; instead that output row holds the season-2001
running average. -/
theorem C1_counterexample :
    (chronSeason exC1 "2002").map (·.game_id) = ["G2"] ∧
    ((get_game_averages_df exC1).getD 1 dOut).game_id = "G2" ∧
    ((get_game_averages_df exC1).getD 1 dOut).avg
      ≠ ((get_game_averages_df exC1).getD 1 dOut).raw := by
  with_unfolding_all decide

/-- **C1** (amended): provided each season's rows occupy one contiguous
block of the date-sorted table (no interleaving of season date ranges),
`get_game_averages_df` processes each season block in chronological
order and attaches to the row at each position the running average row
of that block; the running average at position `i` (0-based) is the
columnwise sum of the block's first `i + 1` stat rows divided by
`i + 1`, so position 0 carries the row's own raw values. -/
theorem C1_amended (df : List RawRow) (blocks : List (String × List SRow))
    (hb : goodBlocks blocks) (hsort : sortedRows df = (blocks.map (·.2)).flatten) :
    get_game_averages_df df
      = blocks.flatMap (fun b =>
          List.zipWith
            (fun r a => OutRow.mk r.entity_id r.game_id r.home_game (statVec r) a)
            b.2 (runningAvgs (b.2.map statVec))) ∧
    (∀ (v : List StatVec) (i : Nat), i < v.length →
      (runningAvgs v).getD i dStat
        = (sumStat (v.take (i + 1))).div ((i + 1 : Nat) : ℚ)) := by
  constructor
  · simp only [get_game_averages_df]
    rw [hsort, seasonsOf_flatten blocks hb, List.flatMap_map]
    have hcong :
        blocks.flatMap (fun b => runningAvgs
            ((((blocks.map (·.2)).flatten).filter
              (fun r => decide (r.season_year = b.1))).map statVec))
          = blocks.flatMap (fun b => runningAvgs (b.2.map statVec)) :=
      List.flatMap_congr
        (fun b hbmem => by rw [filter_flatten_block blocks (fun b2 hb2 => (hb.1 b2 hb2).2) hb.2 b hbmem])
    rw [hcong, zipWith_flatten_blocks _ blocks]
  · intro v i h
    exact runningAvgs_getD v i h

/-- Witness for the amended C1 at a two-season table in contiguous
blocks, with the mean formula instantiated at the second position of the
first season block. -/
theorem C1_amended_witness :
    get_game_averages_df exC1w
      = exC1Blocks.flatMap (fun b =>
          List.zipWith
            (fun r a => OutRow.mk r.entity_id r.game_id r.home_game (statVec r) a)
            b.2 (runningAvgs (b.2.map statVec))) ∧
    (runningAvgs (((exC1Blocks.headD ("", [])).2).map statVec)).getD 1 dStat
      = (sumStat ((((exC1Blocks.headD ("", [])).2).map statVec).take (1 + 1))).div
          ((1 + 1 : Nat) : ℚ) :=
  ⟨(C1_amended exC1w exC1Blocks
      ⟨by with_unfolding_all decide, by with_unfolding_all decide⟩
      (by with_unfolding_all decide)).1,
   (C1_amended exC1w exC1Blocks
      ⟨by with_unfolding_all decide, by with_unfolding_all decide⟩
      (by with_unfolding_all decide)).2
     (((exC1Blocks.headD ("", [])).2).map statVec) 1 (by with_unfolding_all decide)⟩

theorem nonRest_foldl :
    ∀ (xs ys : List StatVec) (c1 c2 : StatVec), xs.map nonRest = ys.map nonRest →
      nonRest c1 = nonRest c2 →
      nonRest (xs.foldl StatVec.add c1) = nonRest (ys.foldl StatVec.add c2) := by
  intro xs
  induction xs with
  | nil =>
    intro ys c1 c2 h hc
    cases ys with
    | nil => simpa using hc
    | cons y ys => simp at h
  | cons x xs ih =>
    intro ys c1 c2 h hc
    cases ys with
    | nil => simp at h
    | cons y ys =>
      simp only [List.map_cons, List.cons.injEq] at h
      obtain ⟨hxy, hrest⟩ := h
      simp only [List.foldl_cons]
      apply ih ys _ _ hrest
      simp only [nonRest, StatVec.add, Prod.mk.injEq] at hc hxy ⊢
      exact ⟨by rw [hc.1, hxy.1], by rw [hc.2, hxy.2]⟩

theorem nonRest_sumStat (xs ys : List StatVec) (h : xs.map nonRest = ys.map nonRest) :
    nonRest (sumStat xs) = nonRest (sumStat ys) := by
  cases xs with
  | nil =>
    cases ys with
    | nil => rfl
    | cons y ys => simp at h
  | cons x xs =>
    cases ys with
    | nil => simp at h
    | cons y ys =>
      simp only [List.map_cons, List.cons.injEq] at h
      simp only [sumStat]
      exact nonRest_foldl xs ys x y h.2 h.1

theorem nonRest_div (v w : StatVec) (n : ℚ) (h : nonRest v = nonRest w) :
    nonRest (v.div n) = nonRest (w.div n) := by
  simp only [nonRest, StatVec.div, Prod.mk.injEq] at h ⊢
  exact ⟨by rw [h.1], by rw [h.2]⟩

/-- **C8** (counterexample to the claim as stated): the two tables
`exC8a` and `exC8b` agree on every season-2002 input row (they differ
only in the date of the prior-season game), yet the season-average
values at position 1 of season 2002 differ, because `REST_DAYS` — the
day gap to the entity's previous game, here a game of the previous
season — is one of the averaged statistics. -/
theorem C8_counterexample :
    exC8a.filter (fun r => decide (seasonYear r.season_id = "2002"))
      = exC8b.filter (fun r => decide (seasonYear r.season_id = "2002")) ∧
    (seasonAvgs exC8a "2002").getD 0 dStat ≠ (seasonAvgs exC8b "2002").getD 0 dStat := by
  with_unfolding_all decide

/-- **C8** (amended): within `get_game_averages_df`, the season-average
values at position `i` of a season, other than the rest-days component,
are a function of the first `i + 1` chronological rows of that season
alone (their raw fields, rest days excluded); only the rest-days
average can additionally depend on rows outside the season, through the
dates of the games preceding them in the entity's full history. -/
theorem C8_amended (df1 df2 : List RawRow) (sy : String) (i : Nat)
    (h1 : i < (chronSeason df1 sy).length) (h2 : i < (chronSeason df2 sy).length)
    (hagree : ((chronSeason df1 sy).map rawView).take (i + 1)
            = ((chronSeason df2 sy).map rawView).take (i + 1)) :
    nonRest ((seasonAvgs df1 sy).getD i dStat)
      = nonRest ((seasonAvgs df2 sy).getD i dStat) := by
  rw [seasonAvgs, seasonAvgs,
      runningAvgs_getD _ i (by simpa using h1),
      runningAvgs_getD _ i (by simpa using h2)]
  apply nonRest_div
  apply nonRest_sumStat
  have key : ∀ df : List RawRow,
      ((((chronSeason df sy).map statVec).take (i + 1)).map nonRest)
        = (((chronSeason df sy).map rawView).take (i + 1)).map Prod.fst := by
    intro df
    rw [← List.map_take, ← List.map_take, List.map_map, List.map_map]
    rfl
  rw [key df1, key df2, hagree]

/-- Witness for the amended C8 at `exC8a`/`exC8b`: their season-2002
rows agree, and every averaged component except the rest-days one is
indeed equal. -/
theorem C8_amended_witness :
    nonRest ((seasonAvgs exC8a "2002").getD 0 dStat)
      = nonRest ((seasonAvgs exC8b "2002").getD 0 dStat) :=
  C8_amended exC8a exC8b "2002" 0 (by with_unfolding_all decide)
    (by with_unfolding_all decide) (by with_unfolding_all decide)

/-- **C2** (counterexample to the claim as stated): in the merged table
built from `exC2T`/`exC2L`, the first merged pair joins team `A`'s row
for its current game `G1` with team `B`'s row for its current game `G2`:
the two paired rows do not share their current game identifier — they
share only the shifted next-game key `G3`. -/
theorem C2_counterexample :
    ((trainPairs exC2T exC2L).headD dPair).1.base.t.game_id = "G1" ∧
    ((trainPairs exC2T exC2L).headD dPair).2.base.t.game_id = "G2" ∧
    ((trainPairs exC2T exC2L).headD dPair).1.gidJoin = some "G3" ∧
    ((trainPairs exC2T exC2L).headD dPair).2.gidJoin = some "G3" := by
  with_unfolding_all decide

/-- **C2** (amended): every row of the final merge pairs a row whose
current-game home flag is 1 with a row whose current-game home flag
is 0, and the two paired rows share their shifted next-game join key
(rows whose next-game keys diverge are excluded by the inner join); the
paired rows' current game identifiers need not coincide. -/
theorem C2_amended (team_df : List OutRow) (pdf : List DistRow)
    (p : ShiftRow × ShiftRow) (hp : p ∈ trainPairs team_df pdf) :
    p.1.base.t.home_game = 1 ∧ p.2.base.t.home_game = 0 ∧
    p.1.gidJoin = p.2.gidJoin := by
  rw [trainPairs] at hp
  obtain ⟨h, hh, hmem⟩ := List.mem_flatMap.1 hp
  obtain ⟨a, ha, rfl⟩ := List.mem_map.1 hmem
  obtain ⟨haA, hkey⟩ := List.mem_filter.1 ha
  rw [shiftHome] at hh
  rw [shiftAway] at haA
  exact ⟨of_decide_eq_true (List.mem_filter.1 hh).2,
    of_decide_eq_true (List.mem_filter.1 haA).2,
    (of_decide_eq_true hkey).symm⟩

/-- Witness for the amended C2 at the concrete merged pair of
`C2_counterexample`. -/
theorem C2_amended_witness :
    ((trainPairs exC2T exC2L).headD dPair).1.base.t.home_game = 1 ∧
    ((trainPairs exC2T exC2L).headD dPair).2.base.t.home_game = 0 ∧
    ((trainPairs exC2T exC2L).headD dPair).1.gidJoin
      = ((trainPairs exC2T exC2L).headD dPair).2.gidJoin :=
  C2_amended exC2T exC2L ((trainPairs exC2T exC2L).headD dPair)
    (by with_unfolding_all decide)

end SportsPred
